import Mathlib

/-
Verification development for the uhd host control layer: a shallow embedding
of src/host/lib/usrp/dboard/manager.cpp and src/host/lib/usrp/multi_usrp.cpp,
with theorems settling the specification claims about them.
-/

/-! ## Daughterboard registry and manager (manager.cpp) -/

/-- Daughterboard identity code (dboard_id_t, a numeric id). -/
abbrev DboardId := Nat

/-- Modelled from the spec: the identity-code constants (ID_NONE, ID_BASIC_TX,
ID_BASIC_RX) are declared in a header outside src/; the spec treats them as
opaque integers, distinct per daughterboard model.  Representative distinct
values are used; only their distinctness matters below. -/
def ID_NONE : DboardId := 0xffff

/-- Identity code of the basic tx board (header outside src/). -/
def ID_BASIC_TX : DboardId := 0x0000

/-- Identity code of the basic rx board (header outside src/). -/
def ID_BASIC_RX : DboardId := 0x0001

/-- A dboard constructor (dboard_ctor_t is a function pointer, compared by
identity).  `basicTx` and `basicRx` stand for `&basic_tx::make` and
`&basic_rx::make` (manager.cpp lines 45-48); `ext n` covers externally
registered constructors. -/
inductive DboardCtor where
  | basicTx
  | basicRx
  | ext (n : Nat)
deriving DecidableEq, Repr

/-- uhd::dict lookup by key over its underlying association list. -/
def dictLookup {α β : Type} [DecidableEq α] : List (α × β) → α → Option β
  | [], _ => none
  | (k, v) :: rest, key => if key = k then some v else dictLookup rest key

/-- uhd::dict operator[] assignment: overwrite the value in place when the key
is present, append a new entry otherwise. -/
def dictInsert {α β : Type} [DecidableEq α] : List (α × β) → α → β → List (α × β)
  | [], key, val => [(key, val)]
  | (k, v) :: rest, key, val =>
    if key = k then (k, val) :: rest else (k, v) :: dictInsert rest key val

/-- The process-wide registry state: id_to_ctor_map and ctor_to_names_map
(manager.cpp lines 55-58) plus the one-time seeding latch of
register_internal_dboards (line 42). -/
structure RegistryState where
  idToCtor : List (DboardId × DboardCtor)
  ctorToNames : List (DboardCtor × List String)
  seeded : Bool
deriving DecidableEq, Repr

/-- The registry before any call: both maps empty, latch unset. -/
def emptyRegistry : RegistryState := ⟨[], [], false⟩

/-- The two map writes performed by manager::register_subdevs
(manager.cpp lines 66-67). -/
def rawRegister (st : RegistryState) (did : DboardId) (ctor : DboardCtor)
    (names : List String) : RegistryState :=
  { st with
    idToCtor := dictInsert st.idToCtor did ctor,
    ctorToNames := dictInsert st.ctorToNames ctor names }

/-- register_internal_dboards (manager.cpp lines 40-49): one-time seeding of
the built-in entries.  The inner register_subdevs calls re-enter
register_internal_dboards, which returns immediately because the latch was set
before registering, so each inner call reduces to its two map writes. -/
def registerInternalDboards (st : RegistryState) : RegistryState :=
  if st.seeded then st
  else
    let st1 := { st with seeded := true }
    let st2 := rawRegister st1 ID_NONE .basicTx [""]
    let st3 := rawRegister st2 ID_NONE .basicRx ["ab"]
    let st4 := rawRegister st3 ID_BASIC_TX .basicTx [""]
    rawRegister st4 ID_BASIC_RX .basicRx ["a", "b", "ab"]

/-- manager::register_subdevs (manager.cpp lines 60-68): seed first, then
write both maps. -/
def register_subdevs (st : RegistryState) (did : DboardId) (ctor : DboardCtor)
    (names : List String) : RegistryState :=
  rawRegister (registerInternalDboards st) did ctor names

/-- get_dboard_ctor (manager.cpp lines 116-128).  The C++ renders the id in
hexadecimal inside the message; the message is abstracted to its fixed text. -/
def get_dboard_ctor (st : RegistryState) (did : DboardId) (xx : String) :
    Except String DboardCtor :=
  match dictLookup st.idToCtor did with
  | none => .error ("Unknown " ++ xx ++ " dboard id")
  | some ctor => .ok ctor

/-- subdev_proxy direction tag (manager.cpp line 80). -/
inductive ProxyType where
  | rx
  | tx
deriving DecidableEq, Repr

/-- A filed subdev_proxy: the index of the driver instance it wraps plus its
fixed direction tag (manager.cpp lines 83-84). -/
structure Proxy where
  inst : Nat
  ptype : ProxyType
deriving DecidableEq, Repr

/-- A constructed dboard manager: the driver instances it owns (entry i
records which constructor made instance i) and the rx/tx proxy maps
(_rx_dboards and _tx_dboards). -/
structure Manager where
  instances : List DboardCtor
  rxDboards : List (String × Proxy)
  txDboards : List (String × Proxy)
deriving DecidableEq, Repr

/-- The xcvr construction loop (manager.cpp lines 150-163): for each name, one
driver instance, wrapped by one rx-tagged proxy and one tx-tagged proxy that
both reference that instance. -/
def buildXcvr (ctor : DboardCtor) : List String → Manager → Manager
  | [], mgr => mgr
  | name :: rest, mgr =>
    let i := mgr.instances.length
    buildXcvr ctor rest
      { instances := mgr.instances ++ [ctor],
        rxDboards := dictInsert mgr.rxDboards name ⟨i, .rx⟩,
        txDboards := dictInsert mgr.txDboards name ⟨i, .tx⟩ }

/-- One of the separate-case loops (manager.cpp lines 168-187): for each name,
one driver instance and one proxy filed in the given direction's map. -/
def buildSide (ctor : DboardCtor) (pt : ProxyType) : List String → Manager → Manager
  | [], mgr => mgr
  | name :: rest, mgr =>
    let i := mgr.instances.length
    buildSide ctor pt rest
      (match pt with
       | .rx =>
         { mgr with
           instances := mgr.instances ++ [ctor],
           rxDboards := dictInsert mgr.rxDboards name ⟨i, .rx⟩ }
       | .tx =>
         { mgr with
           instances := mgr.instances ++ [ctor],
           txDboards := dictInsert mgr.txDboards name ⟨i, .tx⟩ })

/-- manager::manager (manager.cpp lines 130-189): seed the registry, resolve
both ids (fail fast on an unknown id), then branch on constructor equality.
The gpio initialization calls (lines 140-147) go to the external interface
collaborator and carry no state modelled here.  A missing ctor_to_names_map
entry models the uhd::dict lookup failure. -/
def managerMake (st0 : RegistryState) (rxId txId : DboardId) : Except String Manager :=
  let st := registerInternalDboards st0
  match get_dboard_ctor st rxId "rx" with
  | .error e => .error e
  | .ok rxCtor =>
    match get_dboard_ctor st txId "tx" with
    | .error e => .error e
    | .ok txCtor =>
      if rxCtor = txCtor then
        match dictLookup st.ctorToNames rxCtor with
        | none => .error "no subdev names registered for ctor"
        | some names => .ok (buildXcvr rxCtor names ⟨[], [], []⟩)
      else
        match dictLookup st.ctorToNames rxCtor, dictLookup st.ctorToNames txCtor with
        | some rxNames, some txNames =>
          .ok (buildSide txCtor .tx txNames (buildSide rxCtor .rx rxNames ⟨[], [], []⟩))
        | _, _ => .error "no subdev names registered for ctor"

/-- Driver-instance state store: instance index, then key, to stored value.
Keys and values are opaque wax objects, modelled as Nat. -/
abbrev Store := Nat → Nat → Option Nat

/-- The store with every instance state empty. -/
def emptyStore : Store := fun _ _ => none

/-- Modelled from the spec: the concrete driver code (basic_rx / basic_tx in
dboards.hpp) is not under src/.  Per the spec, a driver's rx_set/tx_set
handlers mutate, and its rx_get/tx_get handlers observe, the state of that
driver's own instance ("both directions must observe and mutate the same
underlying board state"). -/
def drvWrite (store : Store) (i keyv v : Nat) : Store :=
  fun i' k' => if i' = i ∧ k' = keyv then some v else store i' k'

/-- subdev_proxy::set (manager.cpp lines 105-110): forward to the wrapped
driver instance; both direction tags reach the same instance state (see
drvWrite).  A name never filed yields no proxy (manager::get_rx_subdev /
get_tx_subdev raise in that case); the store is then returned unchanged. -/
def proxySet (dboards : List (String × Proxy)) (store : Store) (name : String)
    (k v : Nat) : Store :=
  match dictLookup dboards name with
  | none => store
  | some p => drvWrite store p.inst k v

/-- subdev_proxy::get (manager.cpp lines 97-102): read through the proxy from
the wrapped driver instance's state. -/
def proxyGet (dboards : List (String × Proxy)) (store : Store) (name : String)
    (k : Nat) : Option Nat :=
  match dictLookup dboards name with
  | none => none
  | some p => store p.inst k

instance {ε α : Type} [DecidableEq ε] [DecidableEq α] : DecidableEq (Except ε α) := fun x y =>
  match x, y with
  | .ok a, .ok b =>
    if h : a = b then .isTrue (by rw [h]) else .isFalse (by intro hh; cases hh; exact h rfl)
  | .error a, .error b =>
    if h : a = b then .isTrue (by rw [h]) else .isFalse (by intro hh; cases hh; exact h rfl)
  | .ok _, .error _ => .isFalse (by intro hh; cases hh)
  | .error _, .ok _ => .isFalse (by intro hh; cases hh)

example : dictLookup (registerInternalDboards emptyRegistry).idToCtor ID_NONE
    = some .basicRx := by decide

example : dictLookup (registerInternalDboards emptyRegistry).ctorToNames .basicRx
    = some ["a", "b", "ab"] := by decide

example :
    managerMake emptyRegistry ID_NONE ID_BASIC_RX
      = .ok ⟨[.basicRx, .basicRx, .basicRx],
             [("a", ⟨0, .rx⟩), ("b", ⟨1, .rx⟩), ("ab", ⟨2, .rx⟩)],
             [("a", ⟨0, .tx⟩), ("b", ⟨1, .tx⟩), ("ab", ⟨2, .tx⟩)]⟩ := by decide

/-! ## Multi-USRP facade (multi_usrp.cpp) -/

/-- One DSP as addressed by _rx_dsp / _tx_dsp: its host-facing sample rate
property (DSP_PROP_HOST_RATE) and the last stream command written to it
(DSP_PROP_STREAM_CMD).  Stream commands are opaque, modelled as Nat. -/
structure Dsp where
  hostRate : ℚ
  streamCmd : Option Nat
deriving DecidableEq, Repr

/-- One motherboard's properties as addressed through _mboard: clock rate,
the two time registers, clock config (opaque), the rx/tx subdev specs (entries
opaque, only the ordered count matters to the facade), and the rx/tx DSP
lists. -/
structure Mboard where
  clockRate : ℚ
  timeNow : ℚ
  timeLastPps : ℚ
  clockConfig : Nat
  rxSubdevSpec : List Nat
  txSubdevSpec : List Nat
  rxDsps : List Dsp
  txDsps : List Dsp
deriving DecidableEq, Repr

/-- The device as seen through the property tree: its motherboard list
(DEVICE_PROP_MBOARD_NAMES order). -/
structure Dev where
  mboards : List Mboard
deriving DecidableEq, Repr

/-- get_num_mboards (multi_usrp.cpp lines 252-254). -/
def get_num_mboards (dev : Dev) : Nat := dev.mboards.length

/-- The per-board rx subdev-spec sizes, in board order
(get_rx_subdev_spec(m).size() for each m). -/
def rxSpecSizes (dev : Dev) : List Nat :=
  dev.mboards.map (fun b => b.rxSubdevSpec.length)

/-- The per-board tx subdev-spec sizes, in board order. -/
def txSpecSizes (dev : Dev) : List Nat :=
  dev.mboards.map (fun b => b.txSubdevSpec.length)

/-- get_rx_num_channels (multi_usrp.cpp lines 285-291): sum of the rx
subdev-spec sizes over all boards. -/
def get_rx_num_channels (dev : Dev) : Nat := (rxSpecSizes dev).sum

/-- get_tx_num_channels (multi_usrp.cpp lines 395-401). -/
def get_tx_num_channels (dev : Dev) : Nat := (txSpecSizes dev).sum

/-- The loop of rx_chan_to_mcp / tx_chan_to_mcp (multi_usrp.cpp lines 488-508)
as a pure function of the per-board subdev-spec sizes: walk the boards in
order, subtracting each board's size while the remaining channel index is not
below it; stop at the first board whose size exceeds what remains.  When the
flat index is out of range the loop falls off the end, leaving the board index
equal to the number of boards. -/
def chanToMcp : List Nat → Nat → Nat × Nat
  | [], c => (0, c)
  | s :: rest, c =>
    if c < s then (0, c)
    else
      let p := chanToMcp rest (c - s)
      (p.1 + 1, p.2)

/-- rx_chan_to_mcp (multi_usrp.cpp lines 488-497), reading the sizes from the
live device state on every call. -/
def rx_chan_to_mcp (dev : Dev) (chan : Nat) : Nat × Nat :=
  chanToMcp (rxSpecSizes dev) chan

/-- tx_chan_to_mcp (multi_usrp.cpp lines 499-508). -/
def tx_chan_to_mcp (dev : Dev) (chan : Nat) : Nat × Nat :=
  chanToMcp (txSpecSizes dev) chan

/-- A non-fatal diagnostic (UHD_MSG warning): the rate / frequency deviation
warnings carry the target, the achieved value and the "RX"/"TX" tag. -/
inductive Diag where
  | sampRate (target actual : ℚ) (xx : String)
  | tuneFreq (target actual : ℚ) (xx : String)
deriving DecidableEq, Repr

/-- do_samp_rate_warning_message (multi_usrp.cpp lines 51-64): emit one
warning exactly when the achieved rate misses the target by more than the
fixed 1.0 Sps tolerance; never an error. -/
def do_samp_rate_warning_message (target actual : ℚ) (xx : String) : List Diag :=
  if 1 < |target - actual| then [.sampRate target actual xx] else []

/-- do_tune_freq_warning_message (multi_usrp.cpp lines 66-79): same shape with
a 1.0 Hz tolerance. -/
def do_tune_freq_warning_message (target actual : ℚ) (xx : String) : List Diag :=
  if 1 < |target - actual| then [.tuneFreq target actual xx] else []

/-- Result of one facade setter call: the updated device plus the emitted
diagnostics, or the propagated error. -/
abbrev SetResult := Except String (Dev × List Diag)

/-- Sequential fan-out over indices start, start+1, ..., start+n-1, threading
the device state and concatenating diagnostics; the first error
short-circuits, leaving the remaining indices unvisited.  This is the loop
shape shared by every ALL_MBOARDS / ALL_CHANS sentinel branch. -/
def seqFrom (f : Nat → Dev → SetResult) : Nat → Nat → Dev → SetResult
  | _, 0, dev => .ok (dev, [])
  | start, n + 1, dev =>
    match f start dev with
    | .error e => .error e
    | .ok (d, ds) =>
      match seqFrom f (start + 1) n d with
      | .error e => .error e
      | .ok (d', ds') => .ok (d', ds ++ ds')

/-- Modelled from the spec: the ALL_MBOARDS sentinel is declared size_t(~0)
in a header outside src/. -/
def ALL_MBOARDS : Nat := 2 ^ 64 - 1

/-- Modelled from the spec: the ALL_CHANS sentinel, size_t(~0). -/
def ALL_CHANS : Nat := 2 ^ 64 - 1

/-- A property write through _mboard(m) (multi_usrp.cpp lines 510-513):
prop_names_t::at raises on an out-of-range board index. -/
def updMboard (dev : Dev) (m : Nat) (f : Mboard → Mboard) : Except String Dev :=
  if h : m < dev.mboards.length then
    .ok { mboards := dev.mboards.set m (f dev.mboards[m]) }
  else .error "mboard index out of range"

/-- A property write through _rx_dsp(chan) (multi_usrp.cpp lines 514-518):
resolve the flat channel, then index this board's rx dsp list
(dsp_names.at raises when the intra-board index is out of range). -/
def updRxDsp (dev : Dev) (chan : Nat) (f : Dsp → Dsp) : Except String Dev :=
  let mcp := rx_chan_to_mcp dev chan
  if h : mcp.1 < dev.mboards.length then
    let b := dev.mboards[mcp.1]
    if h2 : mcp.2 < b.rxDsps.length then
      .ok { mboards := dev.mboards.set mcp.1
              { b with rxDsps := b.rxDsps.set mcp.2 (f b.rxDsps[mcp.2]) } }
    else .error "rx dsp index out of range"
  else .error "mboard index out of range"

/-- A property write through _tx_dsp(chan) (multi_usrp.cpp lines 519-523). -/
def updTxDsp (dev : Dev) (chan : Nat) (f : Dsp → Dsp) : Except String Dev :=
  let mcp := tx_chan_to_mcp dev chan
  if h : mcp.1 < dev.mboards.length then
    let b := dev.mboards[mcp.1]
    if h2 : mcp.2 < b.txDsps.length then
      .ok { mboards := dev.mboards.set mcp.1
              { b with txDsps := b.txDsps.set mcp.2 (f b.txDsps[mcp.2]) } }
    else .error "tx dsp index out of range"
  else .error "mboard index out of range"

/-- get_rx_rate (multi_usrp.cpp lines 308-310): read DSP_PROP_HOST_RATE
through _rx_dsp(chan). -/
def get_rx_rate (dev : Dev) (chan : Nat) : Except String ℚ :=
  let mcp := rx_chan_to_mcp dev chan
  if h : mcp.1 < dev.mboards.length then
    let b := dev.mboards[mcp.1]
    if h2 : mcp.2 < b.rxDsps.length then .ok b.rxDsps[mcp.2].hostRate
    else .error "rx dsp index out of range"
  else .error "mboard index out of range"

/-- get_tx_rate (multi_usrp.cpp lines 414-416). -/
def get_tx_rate (dev : Dev) (chan : Nat) : Except String ℚ :=
  let mcp := tx_chan_to_mcp dev chan
  if h : mcp.1 < dev.mboards.length then
    let b := dev.mboards[mcp.1]
    if h2 : mcp.2 < b.txDsps.length then .ok b.txDsps[mcp.2].hostRate
    else .error "tx dsp index out of range"
  else .error "mboard index out of range"

/-- The single-board branch of set_master_clock_rate (multi_usrp.cpp line 99):
write MBOARD_PROP_CLOCK_RATE on board mboard. -/
def setMasterClockRateOne (rate : ℚ) (m : Nat) (dev : Dev) : SetResult :=
  (updMboard dev m (fun b => { b with clockRate := rate })).map (fun d => (d, []))

/-- set_master_clock_rate (multi_usrp.cpp lines 97-105).  In the sentinel
branch the C++ re-invokes itself at each m below get_num_mboards(); every such
m is below the sentinel, so each recursive call runs the single-board branch.
The loop bound get_num_mboards() is re-evaluated by the C++ each iteration but
is unchanged by the body (the write touches one board's property, not the
board list), so it is read once here. -/
def set_master_clock_rate (rate : ℚ) (mboard : Nat) (dev : Dev) : SetResult :=
  if mboard ≠ ALL_MBOARDS then setMasterClockRateOne rate mboard dev
  else seqFrom (setMasterClockRateOne rate) 0 (get_num_mboards dev) dev

/-- The single-board branch of set_time_now (multi_usrp.cpp line 176). -/
def setTimeNowOne (t : ℚ) (m : Nat) (dev : Dev) : SetResult :=
  (updMboard dev m (fun b => { b with timeNow := t })).map (fun d => (d, []))

/-- set_time_now (multi_usrp.cpp lines 174-182). -/
def set_time_now (t : ℚ) (mboard : Nat) (dev : Dev) : SetResult :=
  if mboard ≠ ALL_MBOARDS then setTimeNowOne t mboard dev
  else seqFrom (setTimeNowOne t) 0 (get_num_mboards dev) dev

/-- The single-board branch of set_clock_config (multi_usrp.cpp line 244);
clock configs are opaque, modelled as Nat. -/
def setClockConfigOne (cfg : Nat) (m : Nat) (dev : Dev) : SetResult :=
  (updMboard dev m (fun b => { b with clockConfig := cfg })).map (fun d => (d, []))

/-- set_clock_config (multi_usrp.cpp lines 242-250). -/
def set_clock_config (cfg : Nat) (mboard : Nat) (dev : Dev) : SetResult :=
  if mboard ≠ ALL_MBOARDS then setClockConfigOne cfg mboard dev
  else seqFrom (setClockConfigOne cfg) 0 (get_num_mboards dev) dev

/-- The single-board branch of set_rx_subdev_spec (multi_usrp.cpp line 273). -/
def setRxSubdevSpecOne (spec : List Nat) (m : Nat) (dev : Dev) : SetResult :=
  (updMboard dev m (fun b => { b with rxSubdevSpec := spec })).map (fun d => (d, []))

/-- set_rx_subdev_spec (multi_usrp.cpp lines 271-279). -/
def set_rx_subdev_spec (spec : List Nat) (mboard : Nat) (dev : Dev) : SetResult :=
  if mboard ≠ ALL_MBOARDS then setRxSubdevSpecOne spec mboard dev
  else seqFrom (setRxSubdevSpecOne spec) 0 (get_num_mboards dev) dev

/-- The single-board branch of set_tx_subdev_spec (multi_usrp.cpp line 379). -/
def setTxSubdevSpecOne (spec : List Nat) (m : Nat) (dev : Dev) : SetResult :=
  (updMboard dev m (fun b => { b with txSubdevSpec := spec })).map (fun d => (d, []))

/-- set_tx_subdev_spec (multi_usrp.cpp lines 377-385). -/
def set_tx_subdev_spec (spec : List Nat) (mboard : Nat) (dev : Dev) : SetResult :=
  if mboard ≠ ALL_MBOARDS then setTxSubdevSpecOne spec mboard dev
  else seqFrom (setTxSubdevSpecOne spec) 0 (get_num_mboards dev) dev

/-- The single-channel branch of issue_stream_cmd (multi_usrp.cpp line 234):
write DSP_PROP_STREAM_CMD on the resolved rx dsp. -/
def issueStreamCmdOne (cmd : Nat) (chan : Nat) (dev : Dev) : SetResult :=
  (updRxDsp dev chan (fun d => { d with streamCmd := some cmd })).map (fun d => (d, []))

/-- issue_stream_cmd (multi_usrp.cpp lines 232-240): sentinel fans out over
get_rx_num_channels(), which the single-channel branch leaves unchanged. -/
def issue_stream_cmd (cmd : Nat) (chan : Nat) (dev : Dev) : SetResult :=
  if chan ≠ ALL_CHANS then issueStreamCmdOne cmd chan dev
  else seqFrom (issueStreamCmdOne cmd) 0 (get_rx_num_channels dev) dev

/-- The single-channel branch of set_rx_rate (multi_usrp.cpp lines 298-301):
write DSP_PROP_HOST_RATE, then read the achieved rate back and run
do_samp_rate_warning_message on it.  The hardware's rate coercion behind the
property write is the external collaborator hw. -/
def setRxRateOne (hw : ℚ → ℚ) (rate : ℚ) (chan : Nat) (dev : Dev) : SetResult :=
  match updRxDsp dev chan (fun d => { d with hostRate := hw rate }) with
  | .error e => .error e
  | .ok d =>
    match get_rx_rate d chan with
    | .error e => .error e
    | .ok actual => .ok (d, do_samp_rate_warning_message rate actual "RX")

/-- set_rx_rate (multi_usrp.cpp lines 297-306). -/
def set_rx_rate (hw : ℚ → ℚ) (rate : ℚ) (chan : Nat) (dev : Dev) : SetResult :=
  if chan ≠ ALL_CHANS then setRxRateOne hw rate chan dev
  else seqFrom (setRxRateOne hw rate) 0 (get_rx_num_channels dev) dev

/-- The single-channel branch of set_tx_rate (multi_usrp.cpp lines 404-407). -/
def setTxRateOne (hw : ℚ → ℚ) (rate : ℚ) (chan : Nat) (dev : Dev) : SetResult :=
  match updTxDsp dev chan (fun d => { d with hostRate := hw rate }) with
  | .error e => .error e
  | .ok d =>
    match get_tx_rate d chan with
    | .error e => .error e
    | .ok actual => .ok (d, do_samp_rate_warning_message rate actual "TX")

/-- set_tx_rate (multi_usrp.cpp lines 403-412). -/
def set_tx_rate (hw : ℚ → ℚ) (rate : ℚ) (chan : Nat) (dev : Dev) : SetResult :=
  if chan ≠ ALL_CHANS then setTxRateOne hw rate chan dev
  else seqFrom (setTxRateOne hw rate) 0 (get_tx_num_channels dev) dev

/-! ## Time synchronization (multi_usrp.cpp lines 190-230) -/

/-- The fatal message thrown when no PPS edge arrives in time
(multi_usrp.cpp lines 197-201). -/
def ppsTimeoutMsg : String :=
  "Board 0 may not be getting a PPS signal!\nNo PPS detected within the time interval.\nSee the application notes for your device.\n"

/-- A time-deviation warning from the verify step (multi_usrp.cpp
lines 214-218): deviating board index, board 0's time and that board's time. -/
inductive SyncDiag where
  | timeDev (m : Nat) (t0 ti : ℚ)
deriving DecidableEq, Repr

/-- The hardware clocks as observed by set_time_unknown_pps: successive polls
of board 0's TIME_NOW and TIME_PPS registers (poll 0 is the baseline read),
the board count, and the per-verify-iteration TIME_NOW reads (iteration m
reads vNow m 0 then vNow m m).  Times are rational seconds; time_spec_t is
whole seconds plus fractional seconds. -/
structure PpsEnv where
  numMboards : Nat
  nowAt : Nat → ℚ
  ppsAt : Nat → ℚ
  vNow : Nat → Nat → ℚ

/-- The edge-wait loop of set_time_unknown_pps (multi_usrp.cpp lines 194-203):
poll board 0's last-PPS value until it leaves the baseline; if board 0's "now"
clock shows more than 1.1 s elapsed since the baseline, throw the PPS timeout.
Fuel bounds the number of loop iterations modelled; none means the trace did
not decide the loop within the given fuel. -/
def waitForPpsEdge (env : PpsEnv) (startNow startPps : ℚ) :
    Nat → Nat → Option (Except String Unit)
  | 0, _ => none
  | fuel + 1, i =>
    if env.ppsAt i ≠ startPps then some (.ok ())
    else if 11 / 10 < env.nowAt i - startNow then some (.error ppsTimeoutMsg)
    else waitForPpsEdge env startNow startPps fuel (i + 1)

/-- The verify step of set_time_unknown_pps (multi_usrp.cpp lines 210-220):
for every board other than board 0, warn when it is behind board 0 or ahead by
more than 10 ms. -/
def verifyTimes (env : PpsEnv) : List SyncDiag :=
  (List.range' 1 (env.numMboards - 1)).filterMap (fun m =>
    let t0 := env.vNow m 0
    let ti := env.vNow m m
    if ti < t0 ∨ 1 / 100 < ti - t0 then some (.timeDev m t0 ti) else none)

/-- set_time_unknown_pps (multi_usrp.cpp lines 190-221): baseline reads, the
edge-wait loop, then — only after an edge is seen — the synchronous
set_time_next_pps write of t to every board's TIME_PPS arm register
(lines 184-188 and 206), the 1 s settle sleep, and the verify pass.  The
result pairs the list of (board, value) TIME_PPS writes performed with either
the propagated error or the verify diagnostics. -/
def set_time_unknown_pps (env : PpsEnv) (fuel : Nat) (t : ℚ) :
    Option (List (Nat × ℚ) × Except String (List SyncDiag)) :=
  let startNow := env.nowAt 0
  let startPps := env.ppsAt 0
  match waitForPpsEdge env startNow startPps fuel 1 with
  | none => none
  | some (.error e) => some ([], .error e)
  | some (.ok ()) =>
    some ((List.range env.numMboards).map (fun m => (m, t)), .ok (verifyTimes env))

/-- The comparison loop of get_time_synchronized (multi_usrp.cpp
lines 224-228) over the times of boards 1, 2, ...: false as soon as a board is
behind board 0 or ahead of it by more than 10 ms. -/
def syncLoop (t0 : ℚ) : List ℚ → Bool
  | [] => true
  | ti :: rest => if ti < t0 ∨ 1 / 100 < ti - t0 then false else syncLoop t0 rest

/-- get_time_synchronized (multi_usrp.cpp lines 223-230): a pure read-only
query re-running the verify comparison against board 0. -/
def get_time_synchronized (dev : Dev) : Bool :=
  match dev.mboards with
  | [] => true
  | b0 :: rest => syncLoop b0.timeNow (rest.map (fun b => b.timeNow))

/-! ## get_pp_string channel enumeration (multi_usrp.cpp lines 128-157) -/

/-- The rx/tx channel enumeration of get_pp_string: chan persists across the
outer board loop, and board m's inner loop runs while
chan < (m + 1) * (that board's subdev-spec size).  The list collects the chan
values the inner body runs on. -/
def ppChansAux : List Nat → Nat → Nat → List Nat
  | [], _, _ => []
  | s :: rest, m, chan =>
    List.range' chan ((m + 1) * s - chan) ++
      ppChansAux rest (m + 1) (max chan ((m + 1) * s))

/-- The flat channel indices get_pp_string visits for one direction, given the
per-board subdev-spec sizes. -/
def ppChans (sizes : List Nat) : List Nat := ppChansAux sizes 0 0

/-- The rx channel indices get_pp_string visits (multi_usrp.cpp
lines 128-141). -/
def getPpStringRxChans (dev : Dev) : List Nat := ppChans (rxSpecSizes dev)

/-- The tx channel indices get_pp_string visits (multi_usrp.cpp
lines 144-157). -/
def getPpStringTxChans (dev : Dev) : List Nat := ppChans (txSpecSizes dev)

example : chanToMcp [2, 3, 1] 4 = (1, 2) := by decide

example : ppChans [2, 2, 2] = [0, 1, 2, 3, 4, 5] := by decide

example : get_time_synchronized ⟨[]⟩ = true := by decide

/-! ## Helper lemmas -/

theorem dictLookup_dictInsert {α β : Type} [DecidableEq α] (l : List (α × β))
    (k k' : α) (v : β) :
    dictLookup (dictInsert l k v) k' = if k' = k then some v else dictLookup l k' := by
  induction l with
  | nil => simp [dictInsert, dictLookup]
  | cons hd tl ih =>
    obtain ⟨k0, v0⟩ := hd
    by_cases h : k = k0
    · subst h
      simp only [dictInsert, if_pos rfl, dictLookup]
      by_cases h' : k' = k <;> simp [h']
    · simp only [dictInsert, if_neg h, dictLookup]
      by_cases h' : k' = k0
      · subst h'
        have hne : ¬ k' = k := by intro hh; exact h hh.symm
        simp [hne]
      · simp [h', ih]

theorem dictLookup_dictInsert_self {α β : Type} [DecidableEq α] (l : List (α × β))
    (k : α) (v : β) : dictLookup (dictInsert l k v) k = some v := by
  simp [dictLookup_dictInsert]

theorem dictLookup_dictInsert_ne {α β : Type} [DecidableEq α] (l : List (α × β))
    (k k' : α) (v : β) (h : k' ≠ k) :
    dictLookup (dictInsert l k v) k' = dictLookup l k' := by
  simp [dictLookup_dictInsert, h]

theorem mem_keys_dictInsert {α β : Type} [DecidableEq α] (l : List (α × β))
    (k k0 : α) (v : β) (hmem : k0 ∈ (dictInsert l k v).map Prod.fst) :
    k0 ∈ l.map Prod.fst ∨ k0 = k := by
  induction l with
  | nil =>
    simp [dictInsert] at hmem
    right; exact hmem
  | cons hd tl ih =>
    obtain ⟨k1, v1⟩ := hd
    by_cases hk1 : k = k1
    · subst hk1
      rw [show dictInsert ((k, v1) :: tl) k v = (k, v) :: tl from by simp [dictInsert]] at hmem
      simp only [List.map_cons, List.mem_cons] at hmem
      rcases hmem with h' | h'
      · right; exact h'
      · left
        simp only [List.map_cons, List.mem_cons]
        right; exact h'
    · simp only [dictInsert, if_neg hk1, List.map_cons, List.mem_cons] at hmem
      rcases hmem with h' | h'
      · left; simp [h']
      · rcases ih h' with h'' | h''
        · left
          simp only [List.map_cons, List.mem_cons]
          right; exact h''
        · right; exact h''

theorem dictInsert_keys_nodup {α β : Type} [DecidableEq α] (l : List (α × β))
    (k : α) (v : β) (h : (l.map Prod.fst).Nodup) :
    ((dictInsert l k v).map Prod.fst).Nodup := by
  induction l with
  | nil => simp [dictInsert]
  | cons hd tl ih =>
    obtain ⟨k0, v0⟩ := hd
    simp only [List.map_cons, List.nodup_cons] at h
    by_cases hk : k = k0
    · subst hk
      simp [dictInsert, List.nodup_cons, h.1, h.2]
    · simp only [dictInsert, if_neg hk, List.map_cons, List.nodup_cons]
      refine ⟨?_, ih h.2⟩
      intro hmem
      rcases mem_keys_dictInsert tl k k0 v hmem with h' | h'
      · exact h.1 h'
      · exact hk h'.symm

theorem dictLookup_isSome_dictInsert {α β : Type} [DecidableEq α] (l : List (α × β))
    (k k' : α) (v : β) (h : (dictLookup l k').isSome) :
    (dictLookup (dictInsert l k v) k').isSome := by
  rw [dictLookup_dictInsert]
  by_cases hk : k' = k <;> simp [hk, h]


theorem rawRegister_seeded (st : RegistryState) (did : DboardId) (c : DboardCtor)
    (n : List String) : (rawRegister st did c n).seeded = st.seeded := rfl

theorem registerInternalDboards_seeded (st : RegistryState) :
    (registerInternalDboards st).seeded = true := by
  by_cases hs : st.seeded
  · simp [registerInternalDboards, hs]
  · simp [registerInternalDboards, hs, rawRegister]

theorem registerInternalDboards_of_seeded (st : RegistryState) (h : st.seeded = true) :
    registerInternalDboards st = st := by
  simp [registerInternalDboards, h]

theorem registerInternalDboards_idToCtor_nodup (st : RegistryState)
    (h : (st.idToCtor.map Prod.fst).Nodup) :
    ((registerInternalDboards st).idToCtor.map Prod.fst).Nodup := by
  by_cases hs : st.seeded
  · simpa [registerInternalDboards, hs] using h
  · simp only [registerInternalDboards, hs, Bool.false_eq_true, if_false, rawRegister]
    exact dictInsert_keys_nodup _ _ _ (dictInsert_keys_nodup _ _ _
      (dictInsert_keys_nodup _ _ _ (dictInsert_keys_nodup _ _ _ h)))

theorem registerInternalDboards_idToCtor_isSome (st : RegistryState) (k : DboardId)
    (h : (dictLookup st.idToCtor k).isSome) :
    (dictLookup (registerInternalDboards st).idToCtor k).isSome := by
  by_cases hs : st.seeded
  · simpa [registerInternalDboards, hs] using h
  · simp only [registerInternalDboards, hs, Bool.false_eq_true, if_false, rawRegister]
    exact dictLookup_isSome_dictInsert _ _ _ _ (dictLookup_isSome_dictInsert _ _ _ _
      (dictLookup_isSome_dictInsert _ _ _ _ (dictLookup_isSome_dictInsert _ _ _ _ h)))

theorem registerInternalDboards_ctorToNames_isSome (st : RegistryState) (c : DboardCtor)
    (h : (dictLookup st.ctorToNames c).isSome) :
    (dictLookup (registerInternalDboards st).ctorToNames c).isSome := by
  by_cases hs : st.seeded
  · simpa [registerInternalDboards, hs] using h
  · simp only [registerInternalDboards, hs, Bool.false_eq_true, if_false, rawRegister]
    exact dictLookup_isSome_dictInsert _ _ _ _ (dictLookup_isSome_dictInsert _ _ _ _
      (dictLookup_isSome_dictInsert _ _ _ _ (dictLookup_isSome_dictInsert _ _ _ _ h)))

/-- C2: registering the same identity code twice in succession is
last-write-wins: in the state after both calls, the id resolves to the second
registration's constructor entry (ctor2, and ctor2's name list is names2),
registration keeps the key set duplicate-free, and no key of either map is
ever removed (there is no unregister). -/
theorem register_subdevs_last_write_wins :
    ∀ (st st' : RegistryState) (did : DboardId) (c1 c2 : DboardCtor)
      (n1 n2 : List String),
      st' = register_subdevs (register_subdevs st did c1 n1) did c2 n2 →
      dictLookup st'.idToCtor did = some c2 ∧
      dictLookup st'.ctorToNames c2 = some n2 ∧
      ((st.idToCtor.map Prod.fst).Nodup → (st'.idToCtor.map Prod.fst).Nodup) ∧
      (∀ k, (dictLookup st.idToCtor k).isSome → (dictLookup st'.idToCtor k).isSome) ∧
      (∀ c, (dictLookup st.ctorToNames c).isSome →
        (dictLookup st'.ctorToNames c).isSome) := by
  intro st st' did c1 c2 n1 n2 hst
  have hseed1 : (register_subdevs st did c1 n1).seeded = true := by
    rw [register_subdevs, rawRegister_seeded]
    exact registerInternalDboards_seeded st
  have hst' : st' = rawRegister (register_subdevs st did c1 n1) did c2 n2 := by
    rw [hst, register_subdevs, registerInternalDboards_of_seeded _ hseed1]
  subst hst'
  refine ⟨?_, ?_, ?_, ?_, ?_⟩
  · exact dictLookup_dictInsert_self _ _ _
  · exact dictLookup_dictInsert_self _ _ _
  · intro h
    exact dictInsert_keys_nodup _ _ _ (dictInsert_keys_nodup _ _ _
      (registerInternalDboards_idToCtor_nodup st h))
  · intro k h
    exact dictLookup_isSome_dictInsert _ _ _ _ (dictLookup_isSome_dictInsert _ _ _ _
      (registerInternalDboards_idToCtor_isSome st k h))
  · intro c h
    exact dictLookup_isSome_dictInsert _ _ _ _ (dictLookup_isSome_dictInsert _ _ _ _
      (registerInternalDboards_ctorToNames_isSome st c h))

/-- Witness for C2 at a concrete double registration of id 7. -/
theorem register_subdevs_last_write_wins_witness :
    (register_subdevs (register_subdevs emptyRegistry 7 (.ext 1) ["p"]) 7 (.ext 2) ["q"]
      = register_subdevs (register_subdevs emptyRegistry 7 (.ext 1) ["p"]) 7 (.ext 2) ["q"]) ∧
    (dictLookup (register_subdevs (register_subdevs emptyRegistry 7 (.ext 1) ["p"]) 7
        (.ext 2) ["q"]).idToCtor 7 = some (.ext 2) ∧
     dictLookup (register_subdevs (register_subdevs emptyRegistry 7 (.ext 1) ["p"]) 7
        (.ext 2) ["q"]).ctorToNames (.ext 2) = some ["q"] ∧
     ((emptyRegistry.idToCtor.map Prod.fst).Nodup →
       ((register_subdevs (register_subdevs emptyRegistry 7 (.ext 1) ["p"]) 7
          (.ext 2) ["q"]).idToCtor.map Prod.fst).Nodup) ∧
     (∀ k, (dictLookup emptyRegistry.idToCtor k).isSome →
       (dictLookup (register_subdevs (register_subdevs emptyRegistry 7 (.ext 1) ["p"]) 7
          (.ext 2) ["q"]).idToCtor k).isSome) ∧
     (∀ c, (dictLookup emptyRegistry.ctorToNames c).isSome →
       (dictLookup (register_subdevs (register_subdevs emptyRegistry 7 (.ext 1) ["p"]) 7
          (.ext 2) ["q"]).ctorToNames c).isSome)) :=
  ⟨rfl, register_subdevs_last_write_wins emptyRegistry _ 7 (.ext 1) (.ext 2) ["p"] ["q"] rfl⟩

theorem chanToMcp_cons (s : Nat) (rest : List Nat) (c : Nat) :
    chanToMcp (s :: rest) c =
      if c < s then (0, c)
      else ((chanToMcp rest (c - s)).1 + 1, (chanToMcp rest (c - s)).2) := rfl

theorem chanToMcp_spec (sizes : List Nat) : ∀ c, c < sizes.sum →
    (chanToMcp sizes c).1 < sizes.length ∧
    c < (sizes.take ((chanToMcp sizes c).1 + 1)).sum ∧
    (∀ m', m' < (chanToMcp sizes c).1 → (sizes.take (m' + 1)).sum ≤ c) ∧
    (chanToMcp sizes c).2 = c - (sizes.take (chanToMcp sizes c).1).sum := by
  induction sizes with
  | nil => intro c hc; simp at hc
  | cons s rest ih =>
    intro c hc
    by_cases h : c < s
    · rw [chanToMcp_cons, if_pos h]
      refine ⟨Nat.succ_pos _, ?_, ?_, ?_⟩
      · simpa using h
      · intro m' hm'; omega
      · simp
    · have hs : s ≤ c := Nat.le_of_not_lt h
      have hc' : c - s < rest.sum := by
        simp only [List.sum_cons] at hc; omega
      obtain ⟨h1, h2, h3, h4⟩ := ih (c - s) hc'
      rw [chanToMcp_cons, if_neg h]
      refine ⟨?_, ?_, ?_, ?_⟩
      · simpa using Nat.succ_lt_succ h1
      · simp only [List.take_succ_cons, List.sum_cons]
        omega
      · intro m' hm'
        match m' with
        | 0 => simpa using hs
        | k + 1 =>
          have hk := h3 k (by omega)
          simp only [List.take_succ_cons, List.sum_cons]
          omega
      · simp only [List.take_succ_cons, List.sum_cons]
        omega

/-- C1: the channel resolver rx_chan_to_mcp / tx_chan_to_mcp, as a pure
function of the per-board subdev-spec sizes, maps every in-range flat channel
index c to the smallest board index m whose cumulative channel count up to and
including m exceeds c, paired with c minus the cumulative count of the boards
before m; for sizes [2, 3, 1] the flat indices resolve exactly as the spec
lists them, and 6 is out of range (the resolver walks past every board). -/
theorem chan_resolver_correct :
    (∀ (sizes : List Nat) (c : Nat), c < sizes.sum →
      (chanToMcp sizes c).1 < sizes.length ∧
      c < (sizes.take ((chanToMcp sizes c).1 + 1)).sum ∧
      (∀ m', m' < (chanToMcp sizes c).1 → (sizes.take (m' + 1)).sum ≤ c) ∧
      (chanToMcp sizes c).2 = c - (sizes.take (chanToMcp sizes c).1).sum) ∧
    chanToMcp [2, 3, 1] 0 = (0, 0) ∧
    chanToMcp [2, 3, 1] 1 = (0, 1) ∧
    chanToMcp [2, 3, 1] 2 = (1, 0) ∧
    chanToMcp [2, 3, 1] 3 = (1, 1) ∧
    chanToMcp [2, 3, 1] 4 = (1, 2) ∧
    chanToMcp [2, 3, 1] 5 = (2, 0) ∧
    ¬ 6 < [2, 3, 1].sum ∧
    (chanToMcp [2, 3, 1] 6).1 = [2, 3, 1].length ∧
    (∀ (dev : Dev) (chan : Nat),
      rx_chan_to_mcp dev chan = chanToMcp (rxSpecSizes dev) chan ∧
      tx_chan_to_mcp dev chan = chanToMcp (txSpecSizes dev) chan) :=
  ⟨chanToMcp_spec, by decide, by decide, by decide, by decide, by decide, by decide,
   by decide, by decide, fun _ _ => ⟨rfl, rfl⟩⟩

/-- Witness for C1 at sizes [2, 3, 1] and flat channel 4. -/
theorem chan_resolver_correct_witness :
    4 < [2, 3, 1].sum ∧
    ((chanToMcp [2, 3, 1] 4).1 < [2, 3, 1].length ∧
     4 < ([2, 3, 1].take ((chanToMcp [2, 3, 1] 4).1 + 1)).sum ∧
     (∀ m', m' < (chanToMcp [2, 3, 1] 4).1 → ([2, 3, 1].take (m' + 1)).sum ≤ 4) ∧
     (chanToMcp [2, 3, 1] 4).2 = 4 - ([2, 3, 1].take (chanToMcp [2, 3, 1] 4).1).sum) :=
  ⟨by decide, chan_resolver_correct.1 [2, 3, 1] 4 (by decide)⟩

theorem syncLoop_iff (t0 : ℚ) (ts : List ℚ) :
    syncLoop t0 ts = true ↔ ∀ t ∈ ts, t0 ≤ t ∧ t - t0 ≤ 1 / 100 := by
  induction ts with
  | nil => simp [syncLoop]
  | cons t rest ih =>
    by_cases h : t < t0 ∨ 1 / 100 < t - t0
    · rw [syncLoop, if_pos h]
      constructor
      · intro hf; exact absurd hf (by simp)
      · intro hall
        exfalso
        have ht := hall t (List.mem_cons_self t rest)
        rcases h with h | h
        · exact absurd ht.1 (not_le.mpr h)
        · exact absurd ht.2 (not_le.mpr h)
    · rw [syncLoop, if_neg h]
      push_neg at h
      rw [ih]
      constructor
      · intro hall t' ht'
        rcases List.mem_cons.mp ht' with rfl | ht'
        · exact ⟨le_of_not_lt (not_lt.mpr h.1), h.2⟩
        · exact hall t' ht'
      · intro hall t' ht'
        exact hall t' (List.mem_cons_of_mem t ht')

/-- A board record carrying only a "now" time, for concrete examples. -/
def mkTimeBoard (t : ℚ) : Mboard := ⟨0, t, 0, 0, [], [], [], []⟩

/-- Two boards where board 1 is behind board 0. -/
def devBoardBehind : Dev := ⟨[mkTimeBoard 1, mkTimeBoard 0]⟩

/-- Two boards where board 1 is ahead of board 0 by 20 ms. -/
def devBoardAhead : Dev := ⟨[mkTimeBoard 0, mkTimeBoard (2 / 100)]⟩

/-- C7: get_time_synchronized performs no write (it is a pure function of the
board times) and returns true exactly when every board other than board 0 is
neither behind board 0's "now" nor ahead of it by more than 10 ms; it returns
true when all boards report the same "now", and false in the behind /
too-far-ahead cases. -/
theorem get_time_synchronized_correct :
    (∀ (dev : Dev) (b0 : Mboard) (rest : List Mboard),
      dev.mboards = b0 :: rest →
      (get_time_synchronized dev = true ↔
        ∀ b ∈ rest, b0.timeNow ≤ b.timeNow ∧ b.timeNow - b0.timeNow ≤ 1 / 100)) ∧
    (∀ (dev : Dev) (t : ℚ),
      (∀ b ∈ dev.mboards, b.timeNow = t) → get_time_synchronized dev = true) ∧
    get_time_synchronized devBoardBehind = false ∧
    get_time_synchronized devBoardAhead = false := by
  have hmain : ∀ (dev : Dev) (b0 : Mboard) (rest : List Mboard),
      dev.mboards = b0 :: rest →
      (get_time_synchronized dev = true ↔
        ∀ b ∈ rest, b0.timeNow ≤ b.timeNow ∧ b.timeNow - b0.timeNow ≤ 1 / 100) := by
    intro dev b0 rest hdev
    rw [get_time_synchronized, hdev]
    rw [syncLoop_iff]
    constructor
    · intro hall b hb
      exact hall b.timeNow (List.mem_map_of_mem (fun b => b.timeNow) hb)
    · intro hall t ht
      obtain ⟨b, hb, rfl⟩ := List.mem_map.mp ht
      exact hall b hb
  refine ⟨hmain, ?_, ?_, ?_⟩
  · intro dev t hall
    match hdev : dev.mboards with
    | [] => rw [get_time_synchronized, hdev]
    | b0 :: rest =>
      rw [hmain dev b0 rest hdev]
      intro b hb
      have hb0 : b0.timeNow = t := hall b0 (by rw [hdev]; exact List.mem_cons_self _ _)
      have hbt : b.timeNow = t := hall b (by rw [hdev]; exact List.mem_cons_of_mem _ hb)
      rw [hb0, hbt]
      constructor
      · exact le_refl t
      · simp
  · have h := hmain devBoardBehind (mkTimeBoard 1) [mkTimeBoard 0] rfl
    cases hgb : get_time_synchronized devBoardBehind with
    | false => rfl
    | true =>
      exfalso
      have hc := (h.mp hgb) (mkTimeBoard 0) (List.mem_cons_self _ _)
      simp only [mkTimeBoard] at hc
      norm_num at hc
  · have h := hmain devBoardAhead (mkTimeBoard 0) [mkTimeBoard (2 / 100)] rfl
    cases hgb : get_time_synchronized devBoardAhead with
    | false => rfl
    | true =>
      exfalso
      have hc := (h.mp hgb) (mkTimeBoard (2 / 100)) (List.mem_cons_self _ _)
      simp only [mkTimeBoard] at hc
      norm_num at hc

/-- Witness for C7 at the concrete two-board device with board 1 behind. -/
theorem get_time_synchronized_correct_witness :
    devBoardBehind.mboards = mkTimeBoard 1 :: [mkTimeBoard 0] ∧
    (get_time_synchronized devBoardBehind = true ↔
      ∀ b ∈ [mkTimeBoard 0],
        (mkTimeBoard 1).timeNow ≤ b.timeNow ∧
        b.timeNow - (mkTimeBoard 1).timeNow ≤ 1 / 100) :=
  ⟨rfl, get_time_synchronized_correct.1 devBoardBehind (mkTimeBoard 1) [mkTimeBoard 0] rfl⟩

theorem ppChansAux_replicate (s : Nat) : ∀ (k m : Nat),
    ppChansAux (List.replicate k s) m (m * s) = List.range' (m * s) (k * s) := by
  intro k
  induction k with
  | zero => intro m; simp [ppChansAux]
  | succ k ih =>
    intro m
    rw [List.replicate_succ, ppChansAux]
    have h1 : (m + 1) * s - m * s = s := by
      have : (m + 1) * s = m * s + s := by ring
      omega
    have h2 : max (m * s) ((m + 1) * s) = (m + 1) * s :=
      Nat.max_eq_right (Nat.mul_le_mul_right s (Nat.le_succ m))
    rw [h1, h2, ih (m + 1)]
    have h3 : (m + 1) * s = m * s + s := by ring
    rw [h3]
    rw [List.range'_append_1]
    congr 1
    ring

/-- A device with two boards, each with a 2-entry rx subdev spec and a
1-entry tx subdev spec, for concrete checks. -/
def devHomog : Dev :=
  ⟨[⟨0, 0, 0, 0, [0, 1], [0], [⟨0, none⟩, ⟨0, none⟩], [⟨0, none⟩]⟩,
    ⟨0, 0, 0, 0, [0, 1], [0], [⟨0, none⟩, ⟨0, none⟩], [⟨0, none⟩]⟩]⟩

/-- C10: when every board reports the same rx subdev-spec size (and likewise
for tx), the channel enumeration of get_pp_string — whose per-board inner
bound is (m + 1) times board m's spec size, chan persisting across boards —
visits each flat channel index exactly once, each below the direction's total
channel count. -/
theorem get_pp_string_enumeration :
    ∀ (dev : Dev) (n s t : Nat),
      rxSpecSizes dev = List.replicate n s →
      txSpecSizes dev = List.replicate n t →
      getPpStringRxChans dev = List.range (get_rx_num_channels dev) ∧
      getPpStringTxChans dev = List.range (get_tx_num_channels dev) ∧
      (getPpStringRxChans dev).Nodup ∧
      (getPpStringTxChans dev).Nodup ∧
      (∀ c ∈ getPpStringRxChans dev, c < get_rx_num_channels dev) ∧
      (∀ c ∈ getPpStringTxChans dev, c < get_tx_num_channels dev) := by
  have key : ∀ (sizes : List Nat) (n u : Nat), sizes = List.replicate n u →
      ppChans sizes = List.range sizes.sum := by
    intro sizes n u hs
    subst hs
    rw [ppChans]
    have h0 : ppChansAux (List.replicate n u) 0 0 = List.range' 0 (n * u) := by
      simpa using ppChansAux_replicate u n 0
    rw [h0, List.sum_replicate, smul_eq_mul, List.range_eq_range']
  intro dev n s t hrx htx
  have hr : getPpStringRxChans dev = List.range (get_rx_num_channels dev) :=
    key (rxSpecSizes dev) n s hrx
  have ht : getPpStringTxChans dev = List.range (get_tx_num_channels dev) :=
    key (txSpecSizes dev) n t htx
  refine ⟨hr, ht, ?_, ?_, ?_, ?_⟩
  · rw [hr]; exact List.nodup_range _
  · rw [ht]; exact List.nodup_range _
  · intro c hc; rw [hr] at hc; exact List.mem_range.mp hc
  · intro c hc; rw [ht] at hc; exact List.mem_range.mp hc

/-- Witness for C10 at a two-board device with rx sizes [2, 2] and
tx sizes [1, 1]. -/
theorem get_pp_string_enumeration_witness :
    (rxSpecSizes devHomog = List.replicate 2 2 ∧
     txSpecSizes devHomog = List.replicate 2 1) ∧
    (getPpStringRxChans devHomog = List.range (get_rx_num_channels devHomog) ∧
     getPpStringTxChans devHomog = List.range (get_tx_num_channels devHomog) ∧
     (getPpStringRxChans devHomog).Nodup ∧
     (getPpStringTxChans devHomog).Nodup ∧
     (∀ c ∈ getPpStringRxChans devHomog, c < get_rx_num_channels devHomog) ∧
     (∀ c ∈ getPpStringTxChans devHomog, c < get_tx_num_channels devHomog)) :=
  ⟨⟨by decide, by decide⟩, get_pp_string_enumeration devHomog 2 2 1 (by decide) (by decide)⟩

theorem waitForPpsEdge_times_out (env : PpsEnv) (startNow startPps : ℚ)
    (hpps : ∀ j, env.ppsAt j = startPps) :
    ∀ (fuel i : Nat),
      (∃ j, i ≤ j ∧ j < i + fuel ∧ 11 / 10 < env.nowAt j - startNow) →
      waitForPpsEdge env startNow startPps fuel i = some (.error ppsTimeoutMsg) := by
  intro fuel
  induction fuel with
  | zero =>
    intro i hex
    obtain ⟨j, h1, h2, _⟩ := hex
    omega
  | succ fuel ih =>
    intro i hex
    obtain ⟨j, h1, h2, h3⟩ := hex
    rw [waitForPpsEdge]
    rw [if_neg (by simp [hpps i])]
    by_cases hc : 11 / 10 < env.nowAt i - startNow
    · rw [if_pos hc]
    · rw [if_neg hc]
      apply ih (i + 1)
      refine ⟨j, ?_, by omega, h3⟩
      rcases Nat.eq_or_lt_of_le h1 with rfl | h
      · exact absurd h3 hc
      · omega

/-- C6: when board 0's last-PPS value never changes and board 0's "now" clock
shows more than 1.1 s elapsed since the baseline at some poll within
the modelled fuel, set_time_unknown_pps fails with the hardware-timeout error
whose message names the missing PPS signal, and the list of TIME_PPS (arm next
PPS) register writes it performed is empty — no board state was touched. -/
theorem set_time_unknown_pps_timeout :
    ∀ (env : PpsEnv) (fuel N : Nat) (t : ℚ),
      (∀ j, env.ppsAt j = env.ppsAt 0) →
      1 ≤ N → N ≤ fuel →
      11 / 10 < env.nowAt N - env.nowAt 0 →
      set_time_unknown_pps env fuel t = some ([], .error ppsTimeoutMsg) ∧
      ppsTimeoutMsg
        = "Board 0 may not be getting a PPS signal!\nNo PPS detected within the time interval.\nSee the application notes for your device.\n" := by
  intro env fuel N t hpps hN1 hNf hgap
  constructor
  · rw [set_time_unknown_pps]
    rw [waitForPpsEdge_times_out env (env.nowAt 0) (env.ppsAt 0) hpps fuel 1
      ⟨N, hN1, by omega, hgap⟩]
  · rfl

/-- A concrete clock trace for the C6 witness: last-PPS constant, "now"
jumping past the 1.1 s bound at the second poll. -/
def ppsStuckEnv : PpsEnv :=
  ⟨1, fun i => if i = 0 then 0 else 2, fun _ => 0, fun _ _ => 0⟩

/-- Witness for C6 at the concrete stuck-PPS trace. -/
theorem set_time_unknown_pps_timeout_witness :
    ((∀ j, ppsStuckEnv.ppsAt j = ppsStuckEnv.ppsAt 0) ∧ (1 : Nat) ≤ 2 ∧ (2 : Nat) ≤ 3 ∧
      11 / 10 < ppsStuckEnv.nowAt 2 - ppsStuckEnv.nowAt 0) ∧
    (set_time_unknown_pps ppsStuckEnv 3 0 = some ([], .error ppsTimeoutMsg) ∧
     ppsTimeoutMsg
       = "Board 0 may not be getting a PPS signal!\nNo PPS detected within the time interval.\nSee the application notes for your device.\n") :=
  ⟨⟨fun _ => rfl, by omega, by omega, by norm_num [ppsStuckEnv]⟩,
   set_time_unknown_pps_timeout ppsStuckEnv 3 2 0 (fun _ => rfl) (by omega) (by omega)
     (by norm_num [ppsStuckEnv])⟩

theorem list_set_getElem_self {α : Type} (l : List α) (i : Nat) (h : i < l.length) :
    l.set i l[i] = l := by
  apply List.ext_getElem
  · simp
  · intro j hj1 hj2
    rw [List.getElem_set]
    split
    · next heq => subst heq; rfl
    · rfl

theorem rxSpecSizes_set (dev : Dev) (i : Nat) (hi : i < dev.mboards.length)
    (b' : Mboard) (hb : b'.rxSubdevSpec = (dev.mboards[i]).rxSubdevSpec) :
    rxSpecSizes ⟨dev.mboards.set i b'⟩ = rxSpecSizes dev := by
  apply List.ext_getElem
  · simp [rxSpecSizes]
  · intro j hj1 hj2
    simp only [rxSpecSizes, List.getElem_map]
    rw [List.getElem_set]
    split
    · next heq =>
      subst heq
      rw [hb]
    · rfl

theorem txSpecSizes_set (dev : Dev) (i : Nat) (hi : i < dev.mboards.length)
    (b' : Mboard) (hb : b'.txSubdevSpec = (dev.mboards[i]).txSubdevSpec) :
    txSpecSizes ⟨dev.mboards.set i b'⟩ = txSpecSizes dev := by
  apply List.ext_getElem
  · simp [txSpecSizes]
  · intro j hj1 hj2
    simp only [txSpecSizes, List.getElem_map]
    rw [List.getElem_set]
    split
    · next heq =>
      subst heq
      rw [hb]
    · rfl

/-- Hardware rate response achieving 1,000,000.6 Sps. -/
def hwRate06 : ℚ → ℚ := fun _ => 1000000 + 6 / 10

/-- Hardware rate response achieving 1,000,001.5 Sps. -/
def hwRate15 : ℚ → ℚ := fun _ => 1000000 + 3 / 2

/-- A one-board device with one rx channel and one tx channel. -/
def devRate : Dev := ⟨[⟨0, 0, 0, 0, [0], [0], [⟨0, none⟩], [⟨0, none⟩]⟩]⟩

/-- devRate after its rx dsp host rate was set to 1,000,000.6. -/
def devRateA : Dev := ⟨[⟨0, 0, 0, 0, [0], [0], [⟨1000000 + 6 / 10, none⟩], [⟨0, none⟩]⟩]⟩

/-- devRate after its rx dsp host rate was set to 1,000,001.5. -/
def devRateB : Dev := ⟨[⟨0, 0, 0, 0, [0], [0], [⟨1000000 + 3 / 2, none⟩], [⟨0, none⟩]⟩]⟩

/-- devRate after its tx dsp host rate was set to 1,000,001.5. -/
def devRateBtx : Dev := ⟨[⟨0, 0, 0, 0, [0], [0], [⟨0, none⟩], [⟨1000000 + 3 / 2, none⟩]⟩]⟩

theorem samp_warning_eq_nil_iff (target actual : ℚ) (xx : String) :
    do_samp_rate_warning_message target actual xx = [] ↔ |target - actual| ≤ 1 := by
  rw [do_samp_rate_warning_message]
  by_cases h : 1 < |target - actual|
  · simp [h, not_le.mpr h]
  · simp [h, not_lt.mp h]

/-- C8: set_rx_rate / set_tx_rate always succeed on a valid channel and wrap
the achieved rate read back from the hardware in
do_samp_rate_warning_message, which emits exactly one diagnostic (naming "RX"
or "TX") when |target - achieved| exceeds the fixed 1.0 Sps tolerance and
nothing otherwise; likewise for the 1.0 Hz frequency tolerance helper.  At
target 1,000,000.0, an achieved 1,000,000.6 produces no diagnostic and an
achieved 1,000,001.5 produces exactly one. -/
theorem rate_setter_tolerance :
    (∀ (target actual : ℚ) (xx : String),
      (do_samp_rate_warning_message target actual xx ≠ [] ↔ 1 < |target - actual|) ∧
      (do_samp_rate_warning_message target actual xx).length ≤ 1 ∧
      (do_tune_freq_warning_message target actual xx ≠ [] ↔ 1 < |target - actual|) ∧
      (do_tune_freq_warning_message target actual xx).length ≤ 1) ∧
    (∀ (hw : ℚ → ℚ) (rate : ℚ) (chan : Nat) (dev d : Dev) (actual : ℚ),
      chan ≠ ALL_CHANS →
      updRxDsp dev chan (fun x => { x with hostRate := hw rate }) = .ok d →
      get_rx_rate d chan = .ok actual →
      set_rx_rate hw rate chan dev
        = .ok (d, do_samp_rate_warning_message rate actual "RX")) ∧
    (∀ (hw : ℚ → ℚ) (rate : ℚ) (chan : Nat) (dev d : Dev) (actual : ℚ),
      chan ≠ ALL_CHANS →
      updTxDsp dev chan (fun x => { x with hostRate := hw rate }) = .ok d →
      get_tx_rate d chan = .ok actual →
      set_tx_rate hw rate chan dev
        = .ok (d, do_samp_rate_warning_message rate actual "TX")) ∧
    set_rx_rate hwRate06 1000000 0 devRate = .ok (devRateA, []) ∧
    set_rx_rate hwRate15 1000000 0 devRate
      = .ok (devRateB, [.sampRate 1000000 (1000000 + 3 / 2) "RX"]) ∧
    set_tx_rate hwRate15 1000000 0 devRate
      = .ok (devRateBtx, [.sampRate 1000000 (1000000 + 3 / 2) "TX"]) := by
  have hone : ∀ (target actual : ℚ) (xx : String),
      (do_samp_rate_warning_message target actual xx ≠ [] ↔ 1 < |target - actual|) ∧
      (do_samp_rate_warning_message target actual xx).length ≤ 1 ∧
      (do_tune_freq_warning_message target actual xx ≠ [] ↔ 1 < |target - actual|) ∧
      (do_tune_freq_warning_message target actual xx).length ≤ 1 := by
    intro target actual xx
    refine ⟨?_, ?_, ?_, ?_⟩
    · rw [do_samp_rate_warning_message]
      by_cases h : 1 < |target - actual| <;> simp [h]
    · rw [do_samp_rate_warning_message]
      by_cases h : 1 < |target - actual| <;> simp [h]
    · rw [do_tune_freq_warning_message]
      by_cases h : 1 < |target - actual| <;> simp [h]
    · rw [do_tune_freq_warning_message]
      by_cases h : 1 < |target - actual| <;> simp [h]
  have hrx : ∀ (hw : ℚ → ℚ) (rate : ℚ) (chan : Nat) (dev d : Dev) (actual : ℚ),
      chan ≠ ALL_CHANS →
      updRxDsp dev chan (fun x => { x with hostRate := hw rate }) = .ok d →
      get_rx_rate d chan = .ok actual →
      set_rx_rate hw rate chan dev
        = .ok (d, do_samp_rate_warning_message rate actual "RX") := by
    intro hw rate chan dev d actual hchan hupd hget
    rw [set_rx_rate, if_pos hchan, setRxRateOne]
    simp only [hupd, hget]
  have htx : ∀ (hw : ℚ → ℚ) (rate : ℚ) (chan : Nat) (dev d : Dev) (actual : ℚ),
      chan ≠ ALL_CHANS →
      updTxDsp dev chan (fun x => { x with hostRate := hw rate }) = .ok d →
      get_tx_rate d chan = .ok actual →
      set_tx_rate hw rate chan dev
        = .ok (d, do_samp_rate_warning_message rate actual "TX") := by
    intro hw rate chan dev d actual hchan hupd hget
    rw [set_tx_rate, if_pos hchan, setTxRateOne]
    simp only [hupd, hget]
  refine ⟨hone, hrx, htx, ?_, ?_, ?_⟩
  · have h := hrx hwRate06 1000000 0 devRate devRateA (1000000 + 6 / 10)
      (by decide) rfl rfl
    rw [h]
    have hnil : do_samp_rate_warning_message 1000000 (1000000 + 6 / 10) "RX" = [] := by
      rw [samp_warning_eq_nil_iff]
      rw [show (1000000 : ℚ) - (1000000 + 6 / 10) = -(6 / 10) by ring, abs_neg]
      rw [abs_of_nonneg (by norm_num)]
      norm_num
    rw [hnil]
  · have h := hrx hwRate15 1000000 0 devRate devRateB (1000000 + 3 / 2)
      (by decide) rfl rfl
    rw [h]
    have hw : do_samp_rate_warning_message 1000000 (1000000 + 3 / 2) "RX"
        = [.sampRate 1000000 (1000000 + 3 / 2) "RX"] := by
      rw [do_samp_rate_warning_message, if_pos]
      rw [show (1000000 : ℚ) - (1000000 + 3 / 2) = -(3 / 2) by ring, abs_neg]
      rw [abs_of_nonneg (by norm_num)]
      norm_num
    rw [hw]
  · have h := htx hwRate15 1000000 0 devRate devRateBtx (1000000 + 3 / 2)
      (by decide) rfl rfl
    rw [h]
    have hw : do_samp_rate_warning_message 1000000 (1000000 + 3 / 2) "TX"
        = [.sampRate 1000000 (1000000 + 3 / 2) "TX"] := by
      rw [do_samp_rate_warning_message, if_pos]
      rw [show (1000000 : ℚ) - (1000000 + 3 / 2) = -(3 / 2) by ring, abs_neg]
      rw [abs_of_nonneg (by norm_num)]
      norm_num
    rw [hw]

/-- Witness for C8: the single-channel rx branch at the concrete one-board
device with hardware achieving 1,000,001.5. -/
theorem rate_setter_tolerance_witness :
    ((0 : Nat) ≠ ALL_CHANS ∧
     updRxDsp devRate 0 (fun x => { x with hostRate := hwRate15 1000000 }) = .ok devRateB ∧
     get_rx_rate devRateB 0 = .ok (1000000 + 3 / 2)) ∧
    set_rx_rate hwRate15 1000000 0 devRate
      = .ok (devRateB, do_samp_rate_warning_message 1000000 (1000000 + 3 / 2) "RX") :=
  ⟨⟨by decide, rfl, rfl⟩,
   rate_setter_tolerance.2.1 hwRate15 1000000 0 devRate devRateB (1000000 + 3 / 2)
     (by decide) rfl rfl⟩

theorem seqFrom_zero (f : Nat → Dev → SetResult) (start : Nat) (dev : Dev) :
    seqFrom f start 0 dev = .ok (dev, []) := rfl

theorem seqFrom_succ (f : Nat → Dev → SetResult) (start n : Nat) (dev : Dev) :
    seqFrom f start (n + 1) dev
      = match f start dev with
        | .error e => .error e
        | .ok (d, ds) =>
          match seqFrom f (start + 1) n d with
          | .error e => .error e
          | .ok (d', ds') => .ok (d', ds ++ ds') := rfl

theorem seqFrom_congr (f g : Nat → Dev → SetResult) : ∀ (n start : Nat) (dev : Dev),
    (∀ m d, start ≤ m → m < start + n → f m d = g m d) →
    seqFrom f start n dev = seqFrom g start n dev := by
  intro n
  induction n with
  | zero => intro start dev h; rfl
  | succ n ih =>
    intro start dev h
    rw [seqFrom_succ, seqFrom_succ]
    rw [h start dev (Nat.le_refl _) (by omega)]
    cases hg : g start dev with
    | error e => rfl
    | ok p =>
      obtain ⟨d1, ds1⟩ := p
      simp only []
      rw [ih (start + 1) d1 (fun m d hm1 hm2 => h m d (by omega) (by omega))]

theorem seqFrom_abort (f : Nat → Dev → SetResult) :
    ∀ (k n start : Nat) (dev d : Dev) (ds : List Diag) (e : String),
      k < n → seqFrom f start k dev = .ok (d, ds) → f (start + k) d = .error e →
      seqFrom f start n dev = .error e := by
  intro k
  induction k with
  | zero =>
    intro n start dev d ds e hk hok hf
    rw [seqFrom_zero] at hok
    cases hok
    obtain ⟨n', rfl⟩ : ∃ n', n = n' + 1 := ⟨n - 1, by omega⟩
    rw [seqFrom_succ]
    rw [Nat.add_zero] at hf
    rw [hf]
  | succ k ih =>
    intro n start dev d ds e hk hok hf
    obtain ⟨n', rfl⟩ : ∃ n', n = n' + 1 := ⟨n - 1, by omega⟩
    rw [seqFrom_succ] at hok
    cases h1 : f start dev with
    | error e1 => rw [h1] at hok; cases hok
    | ok p =>
      obtain ⟨d1, ds1⟩ := p
      rw [h1] at hok
      simp only [] at hok
      cases h2 : seqFrom f (start + 1) k d1 with
      | error e2 => rw [h2] at hok; cases hok
      | ok q =>
        obtain ⟨d2, ds2⟩ := q
        rw [h2] at hok
        simp only [] at hok
        injection hok with hpair
        have hd : d = d2 := (congrArg Prod.fst hpair).symm
        have hrec := ih n' (start + 1) d1 d2 ds2 e (by omega) h2
          (by rw [show start + 1 + k = start + (k + 1) from by omega, ← hd]; exact hf)
        rw [seqFrom_succ, h1]
        simp only []
        rw [hrec]

theorem fanout_eq (one full : Nat → Dev → SetResult) (cnt sentinel : Nat) (dev : Dev)
    (hfull : ∀ m d, m ≠ sentinel → full m d = one m d) (hcnt : cnt ≤ sentinel) :
    seqFrom one 0 cnt dev = seqFrom full 0 cnt dev := by
  apply seqFrom_congr
  intro m d hm1 hm2
  exact (hfull m d (by omega)).symm

/-- C5: every indexed setter called with the ALL_MBOARDS / ALL_CHANS sentinel
equals the sequential fan-out of that same setter over indices 0..count-1,
and the sequential fan-out aborts at the first failing per-index call,
propagating exactly that error; the result does not depend on the behaviour
of the setter at any index past the first failure (no partial application
across the remaining indices). -/
theorem sentinel_fanout_correct :
    (∀ (rate : ℚ) (dev : Dev), get_num_mboards dev ≤ ALL_MBOARDS →
      set_master_clock_rate rate ALL_MBOARDS dev
        = seqFrom (fun m => set_master_clock_rate rate m) 0 (get_num_mboards dev) dev) ∧
    (∀ (t : ℚ) (dev : Dev), get_num_mboards dev ≤ ALL_MBOARDS →
      set_time_now t ALL_MBOARDS dev
        = seqFrom (fun m => set_time_now t m) 0 (get_num_mboards dev) dev) ∧
    (∀ (cfg : Nat) (dev : Dev), get_num_mboards dev ≤ ALL_MBOARDS →
      set_clock_config cfg ALL_MBOARDS dev
        = seqFrom (fun m => set_clock_config cfg m) 0 (get_num_mboards dev) dev) ∧
    (∀ (spec : List Nat) (dev : Dev), get_num_mboards dev ≤ ALL_MBOARDS →
      set_rx_subdev_spec spec ALL_MBOARDS dev
        = seqFrom (fun m => set_rx_subdev_spec spec m) 0 (get_num_mboards dev) dev) ∧
    (∀ (spec : List Nat) (dev : Dev), get_num_mboards dev ≤ ALL_MBOARDS →
      set_tx_subdev_spec spec ALL_MBOARDS dev
        = seqFrom (fun m => set_tx_subdev_spec spec m) 0 (get_num_mboards dev) dev) ∧
    (∀ (cmd : Nat) (dev : Dev), get_rx_num_channels dev ≤ ALL_CHANS →
      issue_stream_cmd cmd ALL_CHANS dev
        = seqFrom (fun c => issue_stream_cmd cmd c) 0 (get_rx_num_channels dev) dev) ∧
    (∀ (hw : ℚ → ℚ) (rate : ℚ) (dev : Dev), get_rx_num_channels dev ≤ ALL_CHANS →
      set_rx_rate hw rate ALL_CHANS dev
        = seqFrom (fun c => set_rx_rate hw rate c) 0 (get_rx_num_channels dev) dev) ∧
    (∀ (hw : ℚ → ℚ) (rate : ℚ) (dev : Dev), get_tx_num_channels dev ≤ ALL_CHANS →
      set_tx_rate hw rate ALL_CHANS dev
        = seqFrom (fun c => set_tx_rate hw rate c) 0 (get_tx_num_channels dev) dev) ∧
    (∀ (f : Nat → Dev → SetResult) (k n : Nat) (dev d : Dev) (ds : List Diag)
      (e : String),
      k < n → seqFrom f 0 k dev = .ok (d, ds) → f k d = .error e →
      seqFrom f 0 n dev = .error e ∧
      (∀ g : Nat → Dev → SetResult, (∀ j d', j ≤ k → g j d' = f j d') →
        seqFrom g 0 n dev = .error e)) := by
  refine ⟨?_, ?_, ?_, ?_, ?_, ?_, ?_, ?_, ?_⟩
  · intro rate dev hcnt
    rw [set_master_clock_rate, if_neg (fun hne => hne rfl)]
    exact fanout_eq _ _ _ ALL_MBOARDS dev
      (fun m d hm => by rw [set_master_clock_rate, if_pos hm]) hcnt
  · intro t dev hcnt
    rw [set_time_now, if_neg (fun hne => hne rfl)]
    exact fanout_eq _ _ _ ALL_MBOARDS dev
      (fun m d hm => by rw [set_time_now, if_pos hm]) hcnt
  · intro cfg dev hcnt
    rw [set_clock_config, if_neg (fun hne => hne rfl)]
    exact fanout_eq _ _ _ ALL_MBOARDS dev
      (fun m d hm => by rw [set_clock_config, if_pos hm]) hcnt
  · intro spec dev hcnt
    rw [set_rx_subdev_spec, if_neg (fun hne => hne rfl)]
    exact fanout_eq _ _ _ ALL_MBOARDS dev
      (fun m d hm => by rw [set_rx_subdev_spec, if_pos hm]) hcnt
  · intro spec dev hcnt
    rw [set_tx_subdev_spec, if_neg (fun hne => hne rfl)]
    exact fanout_eq _ _ _ ALL_MBOARDS dev
      (fun m d hm => by rw [set_tx_subdev_spec, if_pos hm]) hcnt
  · intro cmd dev hcnt
    rw [issue_stream_cmd, if_neg (fun hne => hne rfl)]
    exact fanout_eq _ _ _ ALL_CHANS dev
      (fun m d hm => by rw [issue_stream_cmd, if_pos hm]) hcnt
  · intro hw rate dev hcnt
    rw [set_rx_rate, if_neg (fun hne => hne rfl)]
    exact fanout_eq _ _ _ ALL_CHANS dev
      (fun m d hm => by rw [set_rx_rate, if_pos hm]) hcnt
  · intro hw rate dev hcnt
    rw [set_tx_rate, if_neg (fun hne => hne rfl)]
    exact fanout_eq _ _ _ ALL_CHANS dev
      (fun m d hm => by rw [set_tx_rate, if_pos hm]) hcnt
  · intro f k n dev d ds e hk hok hf
    have h1 : seqFrom f 0 n dev = .error e := by
      apply seqFrom_abort f k n 0 dev d ds e hk hok
      rw [Nat.zero_add]
      exact hf
    refine ⟨h1, ?_⟩
    intro g hg
    have hgk : seqFrom g 0 k dev = .ok (d, ds) := by
      rw [seqFrom_congr g f k 0 dev (fun m d' hm1 hm2 => hg m d' (by omega))]
      exact hok
    apply seqFrom_abort g k n 0 dev d ds e hk hgk
    rw [Nat.zero_add, hg k d (Nat.le_refl k)]
    exact hf

/-- The per-index setter used by the C5 witness: succeeds at index 0, fails at
every other index. -/
def failAfterZero : Nat → Dev → SetResult :=
  fun j d => if j = 0 then .ok (d, []) else .error "boom"

/-- Witness for C5: the clock-rate fan-out at a concrete one-board device and
the abort behaviour at a concrete fan-out failing at index 1. -/
theorem sentinel_fanout_correct_witness :
    (get_num_mboards devRate ≤ ALL_MBOARDS ∧
     set_master_clock_rate 5 ALL_MBOARDS devRate
       = seqFrom (fun m => set_master_clock_rate 5 m) 0 (get_num_mboards devRate) devRate) ∧
    ((1 : Nat) < 2 ∧ seqFrom failAfterZero 0 1 devRate = .ok (devRate, []) ∧
     failAfterZero 1 devRate = .error "boom" ∧
     seqFrom failAfterZero 0 2 devRate = .error "boom") :=
  ⟨⟨by decide, sentinel_fanout_correct.1 5 devRate (by decide)⟩,
   ⟨by decide, rfl, rfl,
    (sentinel_fanout_correct.2.2.2.2.2.2.2.2 failAfterZero 1 2 devRate devRate [] "boom"
      (by decide) rfl rfl).1⟩⟩

theorem buildXcvr_nil (ctor : DboardCtor) (mgr : Manager) :
    buildXcvr ctor [] mgr = mgr := rfl

theorem buildXcvr_cons (ctor : DboardCtor) (name : String) (rest : List String)
    (mgr : Manager) :
    buildXcvr ctor (name :: rest) mgr
      = buildXcvr ctor rest
          { instances := mgr.instances ++ [ctor],
            rxDboards := dictInsert mgr.rxDboards name ⟨mgr.instances.length, .rx⟩,
            txDboards := dictInsert mgr.txDboards name ⟨mgr.instances.length, .tx⟩ } := rfl

theorem buildXcvr_instances_length (ctor : DboardCtor) :
    ∀ (names : List String) (mgr : Manager),
      (buildXcvr ctor names mgr).instances.length
        = mgr.instances.length + names.length := by
  intro names
  induction names with
  | nil => intro mgr; rw [buildXcvr_nil]; simp
  | cons name rest ih =>
    intro mgr
    rw [buildXcvr_cons, ih]
    simp
    omega

theorem buildXcvr_lookup_not_mem (ctor : DboardCtor) :
    ∀ (names : List String) (mgr : Manager) (name : String), name ∉ names →
      dictLookup (buildXcvr ctor names mgr).rxDboards name
        = dictLookup mgr.rxDboards name ∧
      dictLookup (buildXcvr ctor names mgr).txDboards name
        = dictLookup mgr.txDboards name := by
  intro names
  induction names with
  | nil => intro mgr name _; rw [buildXcvr_nil]; exact ⟨rfl, rfl⟩
  | cons n rest ih =>
    intro mgr name hmem
    have hne : name ≠ n := fun h => hmem (h ▸ List.mem_cons_self n rest)
    have hrest : name ∉ rest := fun h => hmem (List.mem_cons_of_mem n h)
    rw [buildXcvr_cons]
    obtain ⟨h1, h2⟩ := ih _ name hrest
    rw [h1, h2]
    constructor
    · exact dictLookup_dictInsert_ne _ _ _ _ hne
    · exact dictLookup_dictInsert_ne _ _ _ _ hne

theorem buildXcvr_lookup_mem (ctor : DboardCtor) :
    ∀ (names : List String) (mgr : Manager) (name : String), name ∈ names →
      ∃ i, dictLookup (buildXcvr ctor names mgr).rxDboards name = some ⟨i, .rx⟩ ∧
           dictLookup (buildXcvr ctor names mgr).txDboards name = some ⟨i, .tx⟩ := by
  intro names
  induction names with
  | nil => intro mgr name hmem; exact absurd hmem (List.not_mem_nil name)
  | cons n rest ih =>
    intro mgr name hmem
    rw [buildXcvr_cons]
    by_cases hr : name ∈ rest
    · exact ih _ name hr
    · have hn : name = n := by
        rcases List.mem_cons.mp hmem with h | h
        · exact h
        · exact absurd h hr
      subst hn
      obtain ⟨h1, h2⟩ := buildXcvr_lookup_not_mem ctor rest _ name hr
      refine ⟨mgr.instances.length, ?_, ?_⟩
      · rw [h1]; exact dictLookup_dictInsert_self _ _ _
      · rw [h2]; exact dictLookup_dictInsert_self _ _ _

/-- C3: a Manager whose rx and tx identity codes resolve to the same
constructor entry (the transceiver case) constructs one driver instance per
registered subdevice name, and the rx-tagged and tx-tagged proxies filed
under each name wrap that same instance, so a set through either proxy is
observed by a get through the other. -/
theorem manager_transceiver_shared_instance :
    ∀ (st : RegistryState) (rxId txId : DboardId) (ctor : DboardCtor)
      (names : List String) (mgr : Manager),
      get_dboard_ctor (registerInternalDboards st) rxId "rx" = .ok ctor →
      get_dboard_ctor (registerInternalDboards st) txId "tx" = .ok ctor →
      dictLookup (registerInternalDboards st).ctorToNames ctor = some names →
      managerMake st rxId txId = .ok mgr →
      mgr.instances.length = names.length ∧
      ∀ name ∈ names, ∃ i,
        dictLookup mgr.rxDboards name = some ⟨i, .rx⟩ ∧
        dictLookup mgr.txDboards name = some ⟨i, .tx⟩ ∧
        (∀ (store : Store) (k v : Nat),
          proxyGet mgr.txDboards (proxySet mgr.rxDboards store name k v) name k
            = some v ∧
          proxyGet mgr.rxDboards (proxySet mgr.txDboards store name k v) name k
            = some v) := by
  intro st rxId txId ctor names mgr hrx htx hnames hmk
  simp only [managerMake] at hmk
  rw [hrx, htx] at hmk
  simp only [] at hmk
  rw [if_true, hnames] at hmk
  simp only [] at hmk
  injection hmk with hmgr
  subst hmgr
  constructor
  · rw [buildXcvr_instances_length]
    simp
  · intro name hname
    obtain ⟨i, h1, h2⟩ := buildXcvr_lookup_mem ctor names ⟨[], [], []⟩ name hname
    refine ⟨i, h1, h2, ?_⟩
    intro store k v
    constructor
    · rw [proxySet, h1, proxyGet, h2]
      simp [drvWrite]
    · rw [proxySet, h2, proxyGet, h1]
      simp [drvWrite]

/-- The manager built over the basic-rx factory in the transceiver branch
(names a, b, ab; one shared instance per name). -/
def mgrBasicRxXcvr : Manager :=
  ⟨[.basicRx, .basicRx, .basicRx],
   [("a", ⟨0, .rx⟩), ("b", ⟨1, .rx⟩), ("ab", ⟨2, .rx⟩)],
   [("a", ⟨0, .tx⟩), ("b", ⟨1, .tx⟩), ("ab", ⟨2, .tx⟩)]⟩

/-- Witness for C3: both ids ID_BASIC_RX over the freshly seeded registry. -/
theorem manager_transceiver_shared_instance_witness :
    (get_dboard_ctor (registerInternalDboards emptyRegistry) ID_BASIC_RX "rx"
       = .ok .basicRx ∧
     get_dboard_ctor (registerInternalDboards emptyRegistry) ID_BASIC_RX "tx"
       = .ok .basicRx ∧
     dictLookup (registerInternalDboards emptyRegistry).ctorToNames .basicRx
       = some ["a", "b", "ab"] ∧
     managerMake emptyRegistry ID_BASIC_RX ID_BASIC_RX = .ok mgrBasicRxXcvr) ∧
    (mgrBasicRxXcvr.instances.length = ["a", "b", "ab"].length ∧
     ∀ name ∈ ["a", "b", "ab"], ∃ i,
       dictLookup mgrBasicRxXcvr.rxDboards name = some ⟨i, .rx⟩ ∧
       dictLookup mgrBasicRxXcvr.txDboards name = some ⟨i, .tx⟩ ∧
       (∀ (store : Store) (k v : Nat),
         proxyGet mgrBasicRxXcvr.txDboards
           (proxySet mgrBasicRxXcvr.rxDboards store name k v) name k = some v ∧
         proxyGet mgrBasicRxXcvr.rxDboards
           (proxySet mgrBasicRxXcvr.txDboards store name k v) name k = some v)) :=
  ⟨⟨by decide, by decide, by decide, by decide⟩,
   manager_transceiver_shared_instance emptyRegistry ID_BASIC_RX ID_BASIC_RX .basicRx
     ["a", "b", "ab"] mgrBasicRxXcvr (by decide) (by decide) (by decide) (by decide)⟩

theorem buildSide_nil (ctor : DboardCtor) (pt : ProxyType) (mgr : Manager) :
    buildSide ctor pt [] mgr = mgr := rfl

theorem buildSide_cons_rx (ctor : DboardCtor) (name : String) (rest : List String)
    (mgr : Manager) :
    buildSide ctor .rx (name :: rest) mgr
      = buildSide ctor .rx rest
          { mgr with
            instances := mgr.instances ++ [ctor],
            rxDboards := dictInsert mgr.rxDboards name ⟨mgr.instances.length, .rx⟩ } := rfl

theorem buildSide_cons_tx (ctor : DboardCtor) (name : String) (rest : List String)
    (mgr : Manager) :
    buildSide ctor .tx (name :: rest) mgr
      = buildSide ctor .tx rest
          { mgr with
            instances := mgr.instances ++ [ctor],
            txDboards := dictInsert mgr.txDboards name ⟨mgr.instances.length, .tx⟩ } := rfl

theorem buildSide_instances_length (ctor : DboardCtor) (pt : ProxyType) :
    ∀ (names : List String) (mgr : Manager),
      (buildSide ctor pt names mgr).instances.length
        = mgr.instances.length + names.length := by
  intro names
  induction names with
  | nil => intro mgr; rw [buildSide_nil]; simp
  | cons name rest ih =>
    intro mgr
    cases pt
    · rw [buildSide_cons_rx, ih]; simp; omega
    · rw [buildSide_cons_tx, ih]; simp; omega

theorem buildSide_tx_rxDboards (ctor : DboardCtor) :
    ∀ (names : List String) (mgr : Manager),
      (buildSide ctor .tx names mgr).rxDboards = mgr.rxDboards := by
  intro names
  induction names with
  | nil => intro mgr; rw [buildSide_nil]
  | cons name rest ih => intro mgr; rw [buildSide_cons_tx, ih]

theorem buildSide_rx_txDboards (ctor : DboardCtor) :
    ∀ (names : List String) (mgr : Manager),
      (buildSide ctor .rx names mgr).txDboards = mgr.txDboards := by
  intro names
  induction names with
  | nil => intro mgr; rw [buildSide_nil]
  | cons name rest ih => intro mgr; rw [buildSide_cons_rx, ih]

theorem buildSide_rx_lookup_lt (ctor : DboardCtor) :
    ∀ (names : List String) (mgr : Manager) (name : String) (p : Proxy),
      dictLookup (buildSide ctor .rx names mgr).rxDboards name = some p →
      dictLookup mgr.rxDboards name = some p ∨
        p.inst < (buildSide ctor .rx names mgr).instances.length := by
  intro names
  induction names with
  | nil => intro mgr name p h; left; rw [buildSide_nil] at h; exact h
  | cons n rest ih =>
    intro mgr name p h
    rw [buildSide_cons_rx] at h
    rcases ih _ name p h with h' | h'
    · rw [dictLookup_dictInsert] at h'
      by_cases hn : name = n
      · rw [if_pos hn] at h'
        injection h' with hp
        subst hp
        right
        rw [buildSide_cons_rx, buildSide_instances_length]
        simp
        omega
      · rw [if_neg hn] at h'
        left; exact h'
    · right
      rw [buildSide_cons_rx]
      exact h'

theorem buildSide_tx_lookup_ge (ctor : DboardCtor) :
    ∀ (names : List String) (mgr : Manager) (name : String) (p : Proxy),
      dictLookup (buildSide ctor .tx names mgr).txDboards name = some p →
      dictLookup mgr.txDboards name = some p ∨ mgr.instances.length ≤ p.inst := by
  intro names
  induction names with
  | nil => intro mgr name p h; left; rw [buildSide_nil] at h; exact h
  | cons n rest ih =>
    intro mgr name p h
    rw [buildSide_cons_tx] at h
    rcases ih _ name p h with h' | h'
    · rw [dictLookup_dictInsert] at h'
      by_cases hn : name = n
      · rw [if_pos hn] at h'
        injection h' with hp
        subst hp
        right
        simp
      · rw [if_neg hn] at h'
        left; exact h'
    · right
      simp at h'
      omega

/-- Counterexample to C4 as stated: ID_NONE and ID_BASIC_RX are different
identity codes, yet after seeding both resolve to the basic-rx constructor,
so the Manager takes the transceiver branch and a write through the rx proxy
IS visible through the tx proxy under the same name. -/
theorem manager_different_ids_shared_counterexample :
    ID_NONE ≠ ID_BASIC_RX ∧
    managerMake emptyRegistry ID_NONE ID_BASIC_RX = .ok mgrBasicRxXcvr ∧
    proxyGet mgrBasicRxXcvr.txDboards
      (proxySet mgrBasicRxXcvr.rxDboards emptyStore "ab" 0 7) "ab" 0 = some 7 := by
  refine ⟨by decide, by decide, by decide⟩

/-- C4 amended: a Manager whose rx and tx identity codes resolve to DIFFERENT
constructor entries builds independent rx and tx driver instances; for any
name filed in both maps the two proxies wrap distinct instances, and a write
through the rx proxy is not visible through the tx proxy (its get still reads
the old store contents). -/
theorem manager_separate_ctors_independent :
    ∀ (st : RegistryState) (rxId txId : DboardId) (rxCtor txCtor : DboardCtor)
      (mgr : Manager),
      get_dboard_ctor (registerInternalDboards st) rxId "rx" = .ok rxCtor →
      get_dboard_ctor (registerInternalDboards st) txId "tx" = .ok txCtor →
      rxCtor ≠ txCtor →
      managerMake st rxId txId = .ok mgr →
      ∀ (name : String) (pr pt : Proxy),
        dictLookup mgr.rxDboards name = some pr →
        dictLookup mgr.txDboards name = some pt →
        pr.inst ≠ pt.inst ∧
        (∀ (store : Store) (k v : Nat),
          proxyGet mgr.txDboards (proxySet mgr.rxDboards store name k v) name k
            = store pt.inst k) := by
  intro st rxId txId rxCtor txCtor mgr hrx htx hne hmk
  simp only [managerMake] at hmk
  rw [hrx, htx] at hmk
  simp only [] at hmk
  rw [if_neg hne] at hmk
  cases hrn : dictLookup (registerInternalDboards st).ctorToNames rxCtor with
  | none => rw [hrn] at hmk; simp only [] at hmk; cases hmk
  | some rxNames =>
    rw [hrn] at hmk
    cases htn : dictLookup (registerInternalDboards st).ctorToNames txCtor with
    | none => rw [htn] at hmk; simp only [] at hmk; cases hmk
    | some txNames =>
      rw [htn] at hmk
      simp only [] at hmk
      injection hmk with hmgr
      subst hmgr
      intro name pr pt hpr hpt
      rw [buildSide_tx_rxDboards] at hpr
      have hprlt : pr.inst
          < (buildSide rxCtor .rx rxNames ⟨[], [], []⟩).instances.length := by
        rcases buildSide_rx_lookup_lt rxCtor rxNames ⟨[], [], []⟩ name pr hpr with h | h
        · cases h
        · exact h
      have hptge : (buildSide rxCtor .rx rxNames ⟨[], [], []⟩).instances.length
          ≤ pt.inst := by
        rcases buildSide_tx_lookup_ge txCtor txNames _ name pt hpt with h | h
        · rw [buildSide_rx_txDboards] at h; cases h
        · exact h
      have hneq : pr.inst ≠ pt.inst := by omega
      refine ⟨hneq, ?_⟩
      intro store k v
      rw [proxySet, buildSide_tx_rxDboards, hpr, proxyGet, hpt]
      simp only [drvWrite]
      rw [if_neg ?_]
      intro hc
      exact hneq hc.1.symm

/-- A registry with two externally registered boards sharing the subdev name
x: id 256 with its own constructor and id 512 with another. -/
def stSeparate : RegistryState :=
  register_subdevs (register_subdevs emptyRegistry 256 (.ext 0) ["x"]) 512 (.ext 1) ["x"]

/-- The manager built from stSeparate with rx id 256 and tx id 512: separate
instances, one per direction. -/
def mgrSeparate : Manager :=
  ⟨[.ext 0, .ext 1], [("x", ⟨0, .rx⟩)], [("x", ⟨1, .tx⟩)]⟩

/-- Witness for the amended C4 at the concrete two-constructor registry. -/
theorem manager_separate_ctors_independent_witness :
    (get_dboard_ctor (registerInternalDboards stSeparate) 256 "rx" = .ok (.ext 0) ∧
     get_dboard_ctor (registerInternalDboards stSeparate) 512 "tx" = .ok (.ext 1) ∧
     (DboardCtor.ext 0) ≠ (.ext 1) ∧
     managerMake stSeparate 256 512 = .ok mgrSeparate ∧
     dictLookup mgrSeparate.rxDboards "x" = some ⟨0, .rx⟩ ∧
     dictLookup mgrSeparate.txDboards "x" = some ⟨1, .tx⟩) ∧
    ((0 : Nat) ≠ 1 ∧
     (∀ (store : Store) (k v : Nat),
       proxyGet mgrSeparate.txDboards
         (proxySet mgrSeparate.rxDboards store "x" k v) "x" k = store 1 k)) :=
  ⟨⟨by decide, by decide, by decide, by decide, by decide, by decide⟩,
   manager_separate_ctors_independent stSeparate 256 512 (.ext 0) (.ext 1) mgrSeparate
     (by decide) (by decide) (by decide) (by decide) "x" ⟨0, .rx⟩ ⟨1, .tx⟩
     (by decide) (by decide)⟩

/-- Counterexample to C9 as stated: after internal seeding, ID_NONE does
resolve to the basic-rx factory, but that factory's subdevice-name list is
["a", "b", "ab"], not ["ab"] — the ctor_to_names_map entry written by the
ID_NONE/basic-rx registration is itself overwritten by the later ID_BASIC_RX
registration, which is keyed by the same constructor. -/
theorem id_none_names_counterexample :
    dictLookup (registerInternalDboards emptyRegistry).idToCtor ID_NONE
      = some .basicRx ∧
    dictLookup (registerInternalDboards emptyRegistry).ctorToNames .basicRx
      ≠ some ["ab"] ∧
    dictLookup (registerInternalDboards emptyRegistry).ctorToNames .basicRx
      = some ["a", "b", "ab"] := by
  refine ⟨by decide, by decide, by decide⟩

/-- C9 amended: after internal seeding, ID_NONE resolves to the basic-rx
factory (the second ID_NONE registration overwrote the basic-tx one), whose
name list is ["a", "b", "ab"] because ctor_to_names_map is keyed by the
constructor and the later ID_BASIC_RX registration overwrote it; a Manager
built with both identity codes ID_NONE takes the transceiver branch, filing
rx and tx proxies over shared basic-rx driver instances for names a, b, ab. -/
theorem id_none_resolution_after_seeding :
    dictLookup (registerInternalDboards emptyRegistry).idToCtor ID_NONE
      = some .basicRx ∧
    dictLookup (registerInternalDboards emptyRegistry).ctorToNames .basicRx
      = some ["a", "b", "ab"] ∧
    managerMake emptyRegistry ID_NONE ID_NONE = .ok mgrBasicRxXcvr ∧
    mgrBasicRxXcvr.instances = [.basicRx, .basicRx, .basicRx] ∧
    dictLookup mgrBasicRxXcvr.rxDboards "ab" = some ⟨2, .rx⟩ ∧
    dictLookup mgrBasicRxXcvr.txDboards "ab" = some ⟨2, .tx⟩ ∧
    proxyGet mgrBasicRxXcvr.txDboards
      (proxySet mgrBasicRxXcvr.rxDboards emptyStore "ab" 5 9) "ab" 5 = some 9 := by
  refine ⟨by decide, by decide, by decide, by decide, by decide, by decide, by decide⟩
